import Mathlib

set_option linter.unusedVariables false

namespace Remicalc

/-- Calendar date record: year, month in 1..12, day within the real month length. -/
structure CalendarDate where
  year : ℤ
  month : ℤ
  day : ℤ
deriving Repr, DecidableEq

/-- Fixed-unit date record: the day component may run up to 30 regardless of the
real length of the month; resolved only by conversion to a CalendarDate. -/
structure FixedDate where
  year : ℤ
  month : ℤ
  day : ℤ
deriving Repr, DecidableEq

/-- Remission amount in years, months and days, as returned by the remission
calculator of script.js. -/
structure Remission where
  years : ℕ
  months : ℕ
  days : ℕ
deriving Repr, DecidableEq

/-- Gregorian leap-year rule, as implemented by the JavaScript Date object that
script.js delegates month lengths to. -/
def isLeapYear (y : ℤ) : Bool :=
  y % 4 == 0 && (y % 100 != 0 || y % 400 == 0)

/-- Length of a real calendar month, for a month value already in 1..12. -/
def monthLength (y : ℤ) (m : ℤ) : ℤ :=
  if m = 2 then (if isLeapYear y then 29 else 28)
  else if m = 4 ∨ m = 6 ∨ m = 9 ∨ m = 11 then 30
  else 31

/-- Embedding of daysInCalendarMonth from script.js, that is of the JavaScript
call new Date(year, month, 0).getDate(): the month argument is first normalised
into 1..12 (shifting the year accordingly, which is what Date does with
out-of-range months) and the real month length is returned. -/
def daysInCalendarMonth (m y : ℤ) : ℤ :=
  monthLength (y + (m - 1) / 12) ((m - 1) % 12 + 1)

/-- Fuelled interpreter of a while loop with guard cond and body step; the
result none means the fuel ran out before the guard became false. -/
def iterFuel {α : Type} (cond : α → Bool) (step : α → α) : ℕ → α → Option α
  | 0, a => if cond a then none else some a
  | n + 1, a => if cond a then iterFuel cond step n (step a) else some a

/-- Guard of the day-normalisation loop of addFixedDurationToDate_parts in
script.js: while (d > 30). The state is the pair (m, d). -/
def fixDaysCond (s : ℤ × ℤ) : Bool := decide (30 < s.2)

/-- Body of the day-normalisation loop: d -= 30; m += 1. -/
def fixDaysStep (s : ℤ × ℤ) : ℤ × ℤ := (s.1 + 1, s.2 - 30)

/-- Day-normalisation loop of addFixedDurationToDate_parts in script.js. -/
def fixDaysLoop (s : ℤ × ℤ) : ℤ × ℤ :=
  if fixDaysCond s then fixDaysLoop (fixDaysStep s) else s
termination_by s.2.toNat
decreasing_by
  simp only [fixDaysCond, decide_eq_true_eq] at *
  simp only [fixDaysStep]
  omega

/-- Guard of the month-normalisation loop of addFixedDurationToDate_parts in
script.js: while (m > 12). The state is the pair (y, m). -/
def fixMonthsCond (s : ℤ × ℤ) : Bool := decide (12 < s.2)

/-- Body of the month-normalisation loop: m -= 12; y += 1. -/
def fixMonthsStep (s : ℤ × ℤ) : ℤ × ℤ := (s.1 + 1, s.2 - 12)

/-- Month-normalisation loop of addFixedDurationToDate_parts in script.js. -/
def fixMonthsLoop (s : ℤ × ℤ) : ℤ × ℤ :=
  if fixMonthsCond s then fixMonthsLoop (fixMonthsStep s) else s
termination_by s.2.toNat
decreasing_by
  simp only [fixMonthsCond, decide_eq_true_eq] at *
  simp only [fixMonthsStep]
  omega

/-- Guard of the carry loop of convertFixedToCalendarDate in script.js, also of
the final overflow loop of subtractRemissionFromCalendarLPD (the two loops are
verbatim the same): while (d > daysInCalendarMonth(m, y)). State (y, m, d). -/
def carryCond (s : ℤ × ℤ × ℤ) : Bool := decide (daysInCalendarMonth s.2.1 s.1 < s.2.2)

/-- Body of the carry loop: d -= daysInCalendarMonth(m, y); m += 1; wrap the
month to 1 and advance the year when m passes 12. -/
def carryStep (s : ℤ × ℤ × ℤ) : ℤ × ℤ × ℤ :=
  let d := s.2.2 - daysInCalendarMonth s.2.1 s.1
  let m := s.2.1 + 1
  if 12 < m then (s.1 + 1, 1, d) else (s.1, m, d)

/-- Carry loop of convertFixedToCalendarDate in script.js. -/
def carryLoop (s : ℤ × ℤ × ℤ) : ℤ × ℤ × ℤ :=
  if carryCond s then carryLoop (carryStep s) else s
termination_by s.2.2.toNat
decreasing_by
  simp only [carryCond, decide_eq_true_eq] at *
  have h1 : 28 ≤ daysInCalendarMonth s.2.1 s.1 := by
    unfold daysInCalendarMonth monthLength
    split_ifs <;> norm_num
  simp only [carryStep]
  split <;> simp <;> omega

/-- Guard of the remission-days normalisation loop of computePerfectThird in
script.js: while (remD >= 30). The state is the pair (remM, remD). -/
def remNormCond (s : ℕ × ℕ) : Bool := decide (30 ≤ s.2)

/-- Body of the remission-days normalisation loop: remD -= 30; remM += 1. -/
def remNormStep (s : ℕ × ℕ) : ℕ × ℕ := (s.1 + 1, s.2 - 30)

/-- Remission-days normalisation loop of computePerfectThird in script.js. -/
def remNormLoop (s : ℕ × ℕ) : ℕ × ℕ :=
  if remNormCond s then remNormLoop (remNormStep s) else s
termination_by s.2
decreasing_by
  simp only [remNormCond, decide_eq_true_eq] at *
  simp only [remNormStep]
  omega

/-- Guard of the day-borrow loop of subtractRemissionFromCalendarLPD in
script.js: while (d <= 0). The state is the triple (y, m, d). -/
def borrowDaysCond (s : ℤ × ℤ × ℤ) : Bool := decide (s.2.2 ≤ 0)

/-- Body of the day-borrow loop: move to the previous calendar month (wrapping
the year) and add the real length of that month to d. -/
def borrowDaysStep (s : ℤ × ℤ × ℤ) : ℤ × ℤ × ℤ :=
  let m := s.2.1 - 1
  let y := if m < 1 then s.1 - 1 else s.1
  let m2 := if m < 1 then 12 else m
  (y, m2, s.2.2 + daysInCalendarMonth m2 y)

/-- Day-borrow loop of subtractRemissionFromCalendarLPD in script.js. -/
def borrowDaysLoop (s : ℤ × ℤ × ℤ) : ℤ × ℤ × ℤ :=
  if borrowDaysCond s then borrowDaysLoop (borrowDaysStep s) else s
termination_by (1 - s.2.2).toNat
decreasing_by
  simp only [borrowDaysCond, decide_eq_true_eq] at *
  simp only [borrowDaysStep]
  have h1 : 28 ≤ daysInCalendarMonth (if s.2.1 - 1 < 1 then 12 else s.2.1 - 1)
      (if s.2.1 - 1 < 1 then s.1 - 1 else s.1) := by
    unfold daysInCalendarMonth monthLength
    split_ifs <;> norm_num
  omega

/-- Guard of the month-borrow loop of subtractRemissionFromCalendarLPD in
script.js: while (m <= 0). The state is the pair (y, m). -/
def borrowMonthsCond (s : ℤ × ℤ) : Bool := decide (s.2 ≤ 0)

/-- Body of the month-borrow loop: m += 12; y -= 1. -/
def borrowMonthsStep (s : ℤ × ℤ) : ℤ × ℤ := (s.1 - 1, s.2 + 12)

/-- Month-borrow loop of subtractRemissionFromCalendarLPD in script.js. -/
def borrowMonthsLoop (s : ℤ × ℤ) : ℤ × ℤ :=
  if borrowMonthsCond s then borrowMonthsLoop (borrowMonthsStep s) else s
termination_by (1 - s.2).toNat
decreasing_by
  simp only [borrowMonthsCond, decide_eq_true_eq] at *
  simp only [borrowMonthsStep]
  omega

/-- Embedding of addFixedDurationToDate_parts from script.js: add the sentence
components onto the start date components, normalise days into months (fixed
30-day months) and months into years (12 months), then subtract the one day for
the LPD, borrowing a fixed 30-day month when the day drops to 0 or below. -/
def addFixedDurationToDate_parts (startY startM startD : ℤ) (addY addM addD : ℕ) :
    FixedDate :=
  let d0 := startD + (addD : ℤ)
  let m0 := startM + (addM : ℤ)
  let y0 := startY + (addY : ℤ)
  let p1 := fixDaysLoop (m0, d0)
  let p2 := fixMonthsLoop (y0, p1.1)
  let d2 := p1.2 - 1
  if d2 ≤ 0 then
    let m3 := p2.2 - 1
    if m3 ≤ 0 then ⟨p2.1 - 1, m3 + 12, d2 + 30⟩
    else ⟨p2.1, m3, d2 + 30⟩
  else ⟨p2.1, p2.2, d2⟩

/-- Embedding of convertFixedToCalendarDate from script.js: carry the day
overflow forward through real calendar months. -/
def convertFixedToCalendarDate (f : FixedDate) : CalendarDate :=
  let s := carryLoop (f.year, f.month, f.day)
  ⟨s.1, s.2.1, s.2.2⟩

/-- Rounding used in the days step of computePerfectThird in script.js: the
fractional part of the (exact) quotient rounds up when at least one half and
down otherwise. -/
def roundHalfUp (q : ℚ) : ℤ :=
  if (1 : ℚ) / 2 ≤ q - ⌊q⌋ then ⌈q⌉ else ⌊q⌋

/-- Months pool of computePerfectThird in script.js: the input months after the
leftover years (the years with the whole multiples of 3 removed) have been
down-converted at 12 months each. The guard mirrors the if (y > 0) of the
source. -/
def monthsPool (y m : ℕ) : ℕ :=
  if 0 < y then m + (y - y / 3 * 3) * 12 else m

/-- Days pool of computePerfectThird in script.js: the input days after the
leftover months of the months pool have been down-converted at 30 days each.
The guard mirrors the if (m > 0) of the source. -/
def daysPool (y m d : ℕ) : ℕ :=
  if 0 < monthsPool y m then d + (monthsPool y m - monthsPool y m / 3 * 3) * 30
  else d

/-- Exact rational quotient that the days step of computePerfectThird divides
and rounds: the days pool over 3. -/
def daysQuotient (y m d : ℕ) : ℚ := (daysPool y m d : ℚ) / 3

/-- Embedding of computePerfectThird from script.js: whole thirds of the years,
then of the months pool, then the rounded third of the days pool, and a final
normalisation of the remission days into remission months. -/
def computePerfectThird (y m d : ℕ) : Remission :=
  let remY := if 0 < y then y / 3 else 0
  let m1 := monthsPool y m
  let remM := if 0 < m1 then m1 / 3 else 0
  let d1 := daysPool y m d
  let remD := if 0 < d1 then (roundHalfUp ((d1 : ℚ) / 3)).toNat else 0
  let p := remNormLoop (remM, remD)
  ⟨remY, p.1, p.2⟩

/-- Embedding of computeRemissionFromSentence from script.js: the tier dispatch
on the total sentence length in fixed-unit days. -/
def computeRemissionFromSentence (y m d : ℕ) : Remission :=
  let totalDays := y * 360 + m * 30 + d
  if totalDays ≤ 30 then ⟨0, 0, 0⟩
  else if 31 ≤ totalDays ∧ totalDays ≤ 44 then ⟨0, 0, totalDays - 30⟩
  else computePerfectThird y m d

/-- Embedding of subtractRemissionFromCalendarLPD from script.js: subtract the
remission days (borrowing real calendar months), then the remission months
(borrowing years), then the remission years, then add one day and carry any
overflow through real calendar months. -/
def subtractRemissionFromCalendarLPD (lpd : CalendarDate) (rem : Remission) :
    CalendarDate :=
  let d0 := lpd.day - (rem.days : ℤ)
  let p1 := borrowDaysLoop (lpd.year, lpd.month, d0)
  let p2 := borrowMonthsLoop (p1.1, p1.2.1 - (rem.months : ℤ))
  let y2 := p2.1 - (rem.years : ℤ)
  let p3 := carryLoop (y2, p2.2, p1.2.2 + 1)
  ⟨p3.1, p3.2.1, p3.2.2⟩

/-- Embedding of the calculation wired to the Calculate button of script.js:
fixed-unit LPD, calendar LPD, remission, and the EPD, where a sentence of at
most 30 fixed-unit days short-circuits to EPD = LPD. -/
def calcAll (startY startM startD : ℤ) (y m d : ℕ) :
    CalendarDate × Remission × CalendarDate :=
  let fixedLPD := addFixedDurationToDate_parts startY startM startD y m d
  let lpdCalDate := convertFixedToCalendarDate fixedLPD
  let remission := computeRemissionFromSentence y m d
  let epdCalDate :=
    if y * 360 + m * 30 + d ≤ 30 then lpdCalDate
    else subtractRemissionFromCalendarLPD lpdCalDate remission
  (lpdCalDate, remission, epdCalDate)

/-- Total fixed-unit days of a remission of script.js, at 360 days per year and
30 days per month. -/
def remTotal (r : Remission) : ℕ := r.years * 360 + r.months * 30 + r.days

/-- Remission tier of a sentence duration, following the dispatch of
computeRemissionFromSentence: 0 for at most 30 fixed-unit days, 1 for 31..44,
2 for the perfect-third tier. -/
def sentenceTier (y m d : ℕ) : ℕ :=
  let totalDays := y * 360 + m * 30 + d
  if totalDays ≤ 30 then 0
  else if 31 ≤ totalDays ∧ totalDays ≤ 44 then 1
  else 2

/-- A calendar date is valid when the month is in 1..12 and the day is within
the real length of that month. -/
def validCalendarDate (c : CalendarDate) : Prop :=
  1 ≤ c.month ∧ c.month ≤ 12 ∧ 1 ≤ c.day ∧ c.day ≤ daysInCalendarMonth c.month c.year

/-- Remission-days normalisation loop of calculatePerfectThird in the unnamed
source file (src/unnamed/part_000), on integer state: while (remissionDays >= 30)
subtract 30 and add one month. -/
def remNorm000Cond (s : ℤ × ℤ) : Bool := decide (30 ≤ s.2)

/-- Body of the remission-days normalisation loop of part_000. -/
def remNorm000Step (s : ℤ × ℤ) : ℤ × ℤ := (s.1 + 1, s.2 - 30)

/-- Remission-days normalisation loop of part_000 as a total function. -/
def remNorm000Loop (s : ℤ × ℤ) : ℤ × ℤ :=
  if remNorm000Cond s then remNorm000Loop (remNorm000Step s) else s
termination_by s.2.toNat
decreasing_by
  simp only [remNorm000Cond, decide_eq_true_eq] at *
  simp only [remNorm000Step]
  omega

/-- Embedding of roundDecimal from src/unnamed/part_000: fractional part at
least one half rounds up, below one half rounds down. -/
def roundDecimal (q : ℚ) : ℤ :=
  if (1 : ℚ) / 2 ≤ q - ⌊q⌋ then ⌈q⌉ else ⌊q⌋

/-- Embedding of calculatePerfectThird from src/unnamed/part_000: the result is
a months/days pair (that implementation keeps no years component). Each unit is
third-ed separately: whole thirds of years count 4 months each, the fractional
third of the years is converted to months and rounded; whole thirds of months
count directly, the fractional third of the months is converted to days and
rounded; the days third is rounded; finally days at least 30 are normalised
into months. -/
def calculatePerfectThird000 (y m d : ℕ) : ℤ × ℤ :=
  let remM1 : ℤ :=
    if 0 < y then
      ⌊(y : ℚ) / 3⌋ * 4 + roundDecimal (((y : ℚ) / 3 - (⌊(y : ℚ) / 3⌋ : ℚ)) * 12)
    else 0
  let remM2 : ℤ := if 0 < m then remM1 + ⌊(m : ℚ) / 3⌋ else remM1
  let remD1 : ℤ :=
    if 0 < m then roundDecimal (((m : ℚ) / 3 - (⌊(m : ℚ) / 3⌋ : ℚ)) * 30) else 0
  let remD2 : ℤ := if 0 < d then remD1 + roundDecimal ((d : ℚ) / 3) else remD1
  remNorm000Loop (remM2, remD2)

/-- Embedding of the remission tier dispatch (Step 2) of calculateRemission
from src/unnamed/part_000: same thresholds as script.js, with the perfect third
taken from calculatePerfectThird000. -/
def remissionRules000 (y m d : ℕ) : ℤ × ℤ :=
  let totalSentenceDays := y * 360 + m * 30 + d
  if totalSentenceDays ≤ 30 then (0, 0)
  else if 31 ≤ totalSentenceDays ∧ totalSentenceDays ≤ 44 then
    (0, (totalSentenceDays : ℤ) - 30)
  else calculatePerfectThird000 y m d

/-- Total fixed-unit days of a months/days remission pair of part_000. -/
def remTotal000 (p : ℤ × ℤ) : ℤ := p.1 * 30 + p.2

/-- Modelled from the words of claim C1: whole thirds of the years; leftover
years times 12 join the months to form a months pool; whole thirds of the pool;
leftover months times 30 join the days to form a days pool; the days pool over
3 rounded half-up; then while the remission days are at least 30 move 30 days
into one month. -/
def perfectThirdSpec (y m d : ℕ) : Remission :=
  let remY := y / 3
  let pool := (y % 3) * 12 + m
  let remM := pool / 3
  let dpool := (pool % 3) * 30 + d
  let remD := (⌊(dpool : ℚ) / 3 + 1 / 2⌋).toNat
  let p := remNormLoop (remM, remD)
  ⟨remY, p.1, p.2⟩

theorem monthLength_lb (y m : ℤ) : 28 ≤ monthLength y m := by
  unfold monthLength
  split_ifs <;> norm_num

theorem monthLength_ub (y m : ℤ) : monthLength y m ≤ 31 := by
  unfold monthLength
  split_ifs <;> norm_num

theorem monthLength_le_twentynine (y m : ℤ) (h : monthLength y m ≤ 29) : m = 2 := by
  unfold monthLength at h
  split_ifs at h <;> omega

theorem daysInCalendarMonth_lb (m y : ℤ) : 28 ≤ daysInCalendarMonth m y :=
  monthLength_lb _ _

theorem daysInCalendarMonth_ub (m y : ℤ) : daysInCalendarMonth m y ≤ 31 :=
  monthLength_ub _ _

/-- For a month already in range 1..12 no month normalisation happens inside
daysInCalendarMonth. -/
theorem daysInCalendarMonth_eq_monthLength (m y : ℤ) (h1 : 1 ≤ m) (h2 : m ≤ 12) :
    daysInCalendarMonth m y = monthLength y m := by
  unfold daysInCalendarMonth
  have hdiv : (m - 1) / 12 = 0 := by omega
  have hmod : (m - 1) % 12 = m - 1 := by omega
  rw [hdiv, hmod]
  ring_nf

/-- A while loop with a strictly decreasing natural measure finishes within any
fuel at least the measure of the start state. -/
theorem iterFuel_isSome_of_measure {α : Type} (cond : α → Bool) (step : α → α)
    (μ : α → ℕ) (hdec : ∀ a, cond a = true → μ (step a) < μ a) :
    ∀ (n : ℕ) (a : α), μ a ≤ n → (iterFuel cond step n a).isSome = true := by
  intro n
  induction n with
  | zero =>
    intro a h
    by_cases hc : cond a = true
    · exact absurd (hdec a hc) (by omega)
    · simp [iterFuel, hc]
  | succ n ih =>
    intro a h
    by_cases hc : cond a = true
    · have := hdec a hc
      simp only [iterFuel, hc, if_true]
      exact ih (step a) (by omega)
    · simp [iterFuel, hc]

/-- When the fuelled interpreter finishes, its result is the value of any total
function satisfying the defining equation of the loop. -/
theorem iterFuel_sound {α : Type} (cond : α → Bool) (step : α → α) (f : α → α)
    (hf : ∀ a, f a = if cond a then f (step a) else a) :
    ∀ (n : ℕ) (a : α) (r : α), iterFuel cond step n a = some r → f a = r := by
  intro n
  induction n with
  | zero =>
    intro a r h
    by_cases hc : cond a = true
    · simp [iterFuel, hc] at h
    · simp [iterFuel, hc] at h
      rw [hf a, if_neg (by simp [hc])]
      exact h
  | succ n ih =>
    intro a r h
    by_cases hc : cond a = true
    · simp only [iterFuel, hc, if_true] at h
      rw [hf a, if_pos (by simp [hc])]
      exact ih (step a) r h
    · simp [iterFuel, hc] at h
      rw [hf a, if_neg (by simp [hc])]
      exact h

theorem fixDaysLoop_eq (s : ℤ × ℤ) :
    fixDaysLoop s = if fixDaysCond s then fixDaysLoop (fixDaysStep s) else s := by
  rw [fixDaysLoop]

theorem fixMonthsLoop_eq (s : ℤ × ℤ) :
    fixMonthsLoop s = if fixMonthsCond s then fixMonthsLoop (fixMonthsStep s) else s := by
  rw [fixMonthsLoop]

theorem carryLoop_eq (s : ℤ × ℤ × ℤ) :
    carryLoop s = if carryCond s then carryLoop (carryStep s) else s := by
  rw [carryLoop]

theorem remNormLoop_eq (s : ℕ × ℕ) :
    remNormLoop s = if remNormCond s then remNormLoop (remNormStep s) else s := by
  rw [remNormLoop]

theorem borrowDaysLoop_eq (s : ℤ × ℤ × ℤ) :
    borrowDaysLoop s = if borrowDaysCond s then borrowDaysLoop (borrowDaysStep s) else s := by
  rw [borrowDaysLoop]

theorem borrowMonthsLoop_eq (s : ℤ × ℤ) :
    borrowMonthsLoop s = if borrowMonthsCond s then borrowMonthsLoop (borrowMonthsStep s) else s := by
  rw [borrowMonthsLoop]

theorem remNorm000Loop_eq (s : ℤ × ℤ) :
    remNorm000Loop s = if remNorm000Cond s then remNorm000Loop (remNorm000Step s) else s := by
  rw [remNorm000Loop]

theorem fixDaysLoop_of_iterFuel {n : ℕ} {s r : ℤ × ℤ}
    (h : iterFuel fixDaysCond fixDaysStep n s = some r) : fixDaysLoop s = r :=
  iterFuel_sound _ _ _ fixDaysLoop_eq n s r h

theorem fixMonthsLoop_of_iterFuel {n : ℕ} {s r : ℤ × ℤ}
    (h : iterFuel fixMonthsCond fixMonthsStep n s = some r) : fixMonthsLoop s = r :=
  iterFuel_sound _ _ _ fixMonthsLoop_eq n s r h

theorem carryLoop_of_iterFuel {n : ℕ} {s r : ℤ × ℤ × ℤ}
    (h : iterFuel carryCond carryStep n s = some r) : carryLoop s = r :=
  iterFuel_sound _ _ _ carryLoop_eq n s r h

theorem remNormLoop_of_iterFuel {n : ℕ} {s r : ℕ × ℕ}
    (h : iterFuel remNormCond remNormStep n s = some r) : remNormLoop s = r :=
  iterFuel_sound _ _ _ remNormLoop_eq n s r h

theorem borrowDaysLoop_of_iterFuel {n : ℕ} {s r : ℤ × ℤ × ℤ}
    (h : iterFuel borrowDaysCond borrowDaysStep n s = some r) : borrowDaysLoop s = r :=
  iterFuel_sound _ _ _ borrowDaysLoop_eq n s r h

theorem borrowMonthsLoop_of_iterFuel {n : ℕ} {s r : ℤ × ℤ}
    (h : iterFuel borrowMonthsCond borrowMonthsStep n s = some r) : borrowMonthsLoop s = r :=
  iterFuel_sound _ _ _ borrowMonthsLoop_eq n s r h

theorem remNorm000Loop_of_iterFuel {n : ℕ} {s r : ℤ × ℤ}
    (h : iterFuel remNorm000Cond remNorm000Step n s = some r) : remNorm000Loop s = r :=
  iterFuel_sound _ _ _ remNorm000Loop_eq n s r h

/-- Closed form of the remission-days normalisation loop. -/
theorem remNormLoop_eq_divmod : ∀ s : ℕ × ℕ, remNormLoop s = (s.1 + s.2 / 30, s.2 % 30) := by
  intro s
  obtain ⟨a, b⟩ := s
  induction b using Nat.strong_induction_on generalizing a with
  | _ b ih =>
    rw [remNormLoop_eq]
    by_cases h : 30 ≤ b
    · rw [if_pos (by simpa [remNormCond] using h)]
      simp only [remNormStep]
      rw [ih (b - 30) (by omega) (a + 1)]
      simp only [Prod.mk.injEq]
      constructor <;> omega
    · rw [if_neg (by simpa [remNormCond] using h)]
      simp only [Prod.mk.injEq]
      constructor <;> omega

/-- Closed form of the part_000 remission-days normalisation loop on natural
inputs. -/
theorem remNorm000Loop_natCast : ∀ a b : ℕ,
    remNorm000Loop ((a : ℤ), (b : ℤ)) = (((a + b / 30 : ℕ) : ℤ), ((b % 30 : ℕ) : ℤ)) := by
  intro a b
  induction b using Nat.strong_induction_on generalizing a with
  | _ b ih =>
    rw [remNorm000Loop_eq]
    by_cases h : 30 ≤ b
    · rw [if_pos (by simp only [remNorm000Cond, decide_eq_true_eq]; exact_mod_cast h)]
      simp only [remNorm000Step]
      have hb : ((b : ℤ) - 30) = ((b - 30 : ℕ) : ℤ) := by omega
      have ha : ((a : ℤ) + 1) = ((a + 1 : ℕ) : ℤ) := by omega
      rw [hb, ha, ih (b - 30) (by omega) (a + 1)]
      simp only [Prod.mk.injEq]
      constructor <;> omega
    · rw [if_neg (by simp only [remNorm000Cond, decide_eq_true_eq]; omega)]
      simp only [Prod.mk.injEq]
      constructor <;> omega

/-- The rounding of script.js sends q to the floor of q plus one half, the
usual round-half-up. -/
theorem roundHalfUp_eq_floor_add_half (q : ℚ) : roundHalfUp q = ⌊q + 1 / 2⌋ := by
  unfold roundHalfUp
  have hfl : (⌊q⌋ : ℚ) ≤ q := Int.floor_le q
  have hfu : q < ⌊q⌋ + 1 := Int.lt_floor_add_one q
  rcases le_or_lt ((1 : ℚ) / 2) (q - ⌊q⌋) with h | h
  · rw [if_pos h]
    have h1 : ⌊q + 1 / 2⌋ = ⌊q⌋ + 1 := by
      rw [Int.floor_eq_iff]
      constructor
      · push_cast
        linarith
      · push_cast
        linarith
    have h2 : ⌈q⌉ ≤ ⌊q⌋ + 1 := Int.ceil_le.mpr (by push_cast; linarith)
    have h3 : ⌊q⌋ + 1 ≤ ⌈q⌉ := by
      by_contra hcon
      push_neg at hcon
      have hcq : (⌈q⌉ : ℚ) ≤ (⌊q⌋ : ℚ) := by exact_mod_cast (by omega : ⌈q⌉ ≤ ⌊q⌋)
      have hqc : q ≤ (⌈q⌉ : ℚ) := Int.le_ceil q
      linarith
    rw [h1]
    omega
  · rw [if_neg (not_le.mpr h)]
    symm
    rw [Int.floor_eq_iff]
    constructor
    · linarith
    · linarith

/-- Floor of a natural number divided by three, as a rational, is natural
division. -/
theorem floor_natCast_div_three (n : ℕ) : ⌊(n : ℚ) / 3⌋ = ((n / 3 : ℕ) : ℤ) := by
  rw [Int.floor_eq_iff]
  constructor
  · rw [le_div_iff₀ (by norm_num : (0 : ℚ) < 3)]
    push_cast
    exact_mod_cast (by omega : (n / 3) * 3 ≤ n)
  · rw [div_lt_iff₀ (by norm_num : (0 : ℚ) < 3)]
    push_cast
    exact_mod_cast (by omega : n < (n / 3 + 1) * 3)

/-- Fractional part of a natural number divided by three. -/
theorem fract_natCast_div_three (n : ℕ) :
    (n : ℚ) / 3 - ((n / 3 : ℕ) : ℚ) = ((n % 3 : ℕ) : ℚ) / 3 := by
  have h : (n : ℚ) = 3 * ((n / 3 : ℕ) : ℚ) + ((n % 3 : ℕ) : ℚ) := by
    exact_mod_cast (by omega : n = 3 * (n / 3) + n % 3)
  rw [h]
  ring

/-- Round-half-up of a natural number over three is natural division of the
successor by three: the fractional part is 0, one third or two thirds, and only
the last of these reaches one half. -/
theorem halfUpThird (n : ℕ) : ⌊(n : ℚ) / 3 + 1 / 2⌋ = (((n + 1) / 3 : ℕ) : ℤ) := by
  have h1 : ((n + 1) / 3) * 3 ≤ n + 1 := by omega
  have h3 : n ≤ ((n + 1) / 3) * 3 + 1 := by omega
  have h1q : (((n + 1) / 3 : ℕ) : ℚ) * 3 ≤ (n : ℚ) + 1 := by exact_mod_cast h1
  have h3q : (n : ℚ) ≤ (((n + 1) / 3 : ℕ) : ℚ) * 3 + 1 := by exact_mod_cast h3
  rw [Int.floor_eq_iff]
  refine ⟨?_, ?_⟩
  · rw [Int.cast_natCast]
    linarith
  · rw [Int.cast_natCast]
    linarith

/-- The days rounding of script.js on a natural pool: successor division by
three. -/
theorem roundThird_toNat (n : ℕ) : (roundHalfUp ((n : ℚ) / 3)).toNat = (n + 1) / 3 := by
  rw [roundHalfUp_eq_floor_add_half, halfUpThird]
  exact Int.toNat_natCast _

/-- The rounding helper of part_000 is the same function as the rounding of
script.js. -/
theorem roundDecimal_eq_roundHalfUp : roundDecimal = roundHalfUp := rfl

/-- Rounding an integer-valued rational changes nothing. -/
theorem roundDecimal_natCast (k : ℕ) : roundDecimal ((k : ℕ) : ℚ) = (k : ℤ) := by
  unfold roundDecimal
  rw [Int.floor_natCast]
  rw [if_neg (by norm_num)]

/-- Closed form of the months pool of computePerfectThird. -/
theorem monthsPool_eq (y m : ℕ) : monthsPool y m = (y % 3) * 12 + m := by
  unfold monthsPool
  split <;> omega

/-- Closed form of the days pool of computePerfectThird. -/
theorem daysPool_eq (y m d : ℕ) : daysPool y m d = (m % 3) * 30 + d := by
  unfold daysPool
  rw [monthsPool_eq]
  split <;> omega

/-- Closed form of computePerfectThird: whole thirds of years; whole thirds of
the months pool plus the overflow of the days third; the remainder of the days
third. -/
theorem computePerfectThird_eq (y m d : ℕ) :
    computePerfectThird y m d =
      ⟨y / 3,
       ((y % 3) * 12 + m) / 3 + (((m % 3) * 30 + d + 1) / 3) / 30,
       (((m % 3) * 30 + d + 1) / 3) % 30⟩ := by
  have hy : (if 0 < y then y / 3 else 0) = y / 3 := by split <;> omega
  have hm : (if 0 < (y % 3) * 12 + m then ((y % 3) * 12 + m) / 3 else 0) =
      ((y % 3) * 12 + m) / 3 := by split <;> omega
  have hd : (if 0 < (m % 3) * 30 + d
        then (roundHalfUp ((((m % 3) * 30 + d : ℕ) : ℚ) / 3)).toNat else 0) =
      ((m % 3) * 30 + d + 1) / 3 := by
    by_cases h : 0 < (m % 3) * 30 + d
    · rw [if_pos h, roundThird_toNat]
    · rw [if_neg h]
      omega
  simp only [computePerfectThird, monthsPool_eq, daysPool_eq, hy, hm, hd,
    remNormLoop_eq_divmod]

/-- Closed form of the claim-C1 description of the perfect third; it coincides
with the closed form of computePerfectThird. -/
theorem perfectThirdSpec_eq (y m d : ℕ) :
    perfectThirdSpec y m d =
      ⟨y / 3,
       ((y % 3) * 12 + m) / 3 + (((m % 3) * 30 + d + 1) / 3) / 30,
       (((m % 3) * 30 + d + 1) / 3) % 30⟩ := by
  have hpool : ((y % 3) * 12 + m) % 3 = m % 3 := by omega
  simp only [perfectThirdSpec, hpool, halfUpThird, Int.toNat_natCast,
    remNormLoop_eq_divmod]

/-- Closed form of the total fixed-unit days of the computed remission, per
tier. -/
theorem remTotal_computeRemissionFromSentence (y m d : ℕ) :
    remTotal (computeRemissionFromSentence y m d) =
      if y * 360 + m * 30 + d ≤ 30 then 0
      else if y * 360 + m * 30 + d ≤ 44 then y * 360 + m * 30 + d - 30
      else 360 * (y / 3) + 30 * (((y % 3) * 12 + m) / 3) + ((m % 3) * 30 + d + 1) / 3 := by
  simp only [computeRemissionFromSentence]
  by_cases h1 : y * 360 + m * 30 + d ≤ 30
  · rw [if_pos h1, if_pos h1]
    simp [remTotal]
  · rw [if_neg h1, if_neg h1]
    by_cases h2 : y * 360 + m * 30 + d ≤ 44
    · rw [if_pos (by omega : 31 ≤ y * 360 + m * 30 + d ∧ y * 360 + m * 30 + d ≤ 44),
        if_pos h2]
      simp [remTotal]
    · rw [if_neg (by omega), if_neg h2, computePerfectThird_eq]
      simp only [remTotal]
      omega

/-- C1: for every sentence duration of non-negative integers with at least 45
fixed-unit days, the remission returned by computeRemissionFromSentence equals
the perfect-third computation described by the claim: whole thirds of years,
a months pool from the leftover years, whole thirds of the pool, a days pool
from the leftover months, the days pool over three rounded half-up, and a final
days-to-months normalisation. -/
theorem claim_C1 (y m d : ℕ) (h : 45 ≤ y * 360 + m * 30 + d) :
    computeRemissionFromSentence y m d = perfectThirdSpec y m d := by
  simp only [computeRemissionFromSentence]
  rw [if_neg (by omega), if_neg (by omega)]
  rw [computePerfectThird_eq, perfectThirdSpec_eq]

theorem claim_C1_witness :
    45 ≤ 1 * 360 + 0 * 30 + 0 ∧
      computeRemissionFromSentence 1 0 0 = perfectThirdSpec 1 0 0 :=
  ⟨by norm_num, claim_C1 1 0 0 (by norm_num)⟩

/-- C2: for every sentence duration with at most 30 fixed-unit days the
computed remission is exactly zero and the returned EPD equals the returned
LPD, the one-day adjustment being skipped in this tier. -/
theorem claim_C2 (startY startM startD : ℤ) (y m d : ℕ)
    (h : y * 360 + m * 30 + d ≤ 30) :
    (calcAll startY startM startD y m d).2.1 = ⟨0, 0, 0⟩ ∧
      (calcAll startY startM startD y m d).2.2 = (calcAll startY startM startD y m d).1 := by
  simp [calcAll, computeRemissionFromSentence, h]

theorem claim_C2_witness :
    (calcAll 2024 1 1 0 0 10).2.1 = ⟨0, 0, 0⟩ ∧
      (calcAll 2024 1 1 0 0 10).2.2 = (calcAll 2024 1 1 0 0 10).1 :=
  claim_C2 2024 1 1 0 0 10 (by norm_num)

/-- C7: the remission days component is always below 30 (excess carried into
months), the years component is exactly the whole thirds of the sentence years
(months are never carried into years), and at the validated input of 2 years,
11 months, 29 days the returned remission months reach 12. -/
theorem claim_C7 :
    (∀ y m d : ℕ, (computeRemissionFromSentence y m d).days < 30 ∧
        (computeRemissionFromSentence y m d).years =
          (if 45 ≤ y * 360 + m * 30 + d then y / 3 else 0)) ∧
      12 ≤ (computeRemissionFromSentence 2 11 29).months := by
  constructor
  · intro y m d
    simp only [computeRemissionFromSentence]
    by_cases h1 : y * 360 + m * 30 + d ≤ 30
    · rw [if_pos h1, if_neg (by omega)]
      exact ⟨by norm_num, rfl⟩
    · by_cases h2 : y * 360 + m * 30 + d ≤ 44
      · rw [if_neg h1, if_pos (by omega : 31 ≤ y * 360 + m * 30 + d ∧
          y * 360 + m * 30 + d ≤ 44), if_neg (by omega)]
        exact ⟨by simp; omega, rfl⟩
      · rw [if_neg h1, if_neg (by omega), if_pos (by omega), computePerfectThird_eq]
        exact ⟨by simp; omega, rfl⟩
  · have h : computeRemissionFromSentence 2 11 29 = ⟨0, 12, 0⟩ := by
      simp only [computeRemissionFromSentence]
      rw [if_neg (by norm_num), if_neg (by norm_num), computePerfectThird_eq]
    rw [h]

/-- C9: within a fixed remission tier, a componentwise larger sentence never
receives a smaller remission, remissions compared in total fixed-unit days. -/
theorem claim_C9 (y1 m1 d1 y2 m2 d2 : ℕ)
    (hy : y1 ≤ y2) (hm : m1 ≤ m2) (hd : d1 ≤ d2)
    (hne : (y1, m1, d1) ≠ (y2, m2, d2))
    (ht : sentenceTier y1 m1 d1 = sentenceTier y2 m2 d2) :
    remTotal (computeRemissionFromSentence y1 m1 d1) ≤
      remTotal (computeRemissionFromSentence y2 m2 d2) := by
  rw [remTotal_computeRemissionFromSentence y1 m1 d1,
    remTotal_computeRemissionFromSentence y2 m2 d2]
  simp only [sentenceTier] at ht
  split_ifs at ht ⊢ <;> omega

theorem claim_C9_witness :
    remTotal (computeRemissionFromSentence 1 0 0) ≤
      remTotal (computeRemissionFromSentence 2 0 0) :=
  claim_C9 1 0 0 2 0 0 (by norm_num) (by norm_num) (by norm_num) (by decide) (by decide)

/-- Fractional third of a natural number, converted to twelfths and rounded:
exactly four per leftover unit. -/
theorem roundDecimal_fract_twelve (n : ℕ) :
    roundDecimal (((n : ℚ) / 3 - ((n / 3 : ℕ) : ℚ)) * 12) = (((n % 3) * 4 : ℕ) : ℤ) := by
  have h12 : ((n % 3 : ℕ) : ℚ) / 3 * 12 = (((n % 3) * 4 : ℕ) : ℚ) := by
    push_cast
    ring
  rw [fract_natCast_div_three, h12, roundDecimal_natCast]

/-- Fractional third of a natural number, converted to thirtieths and rounded:
exactly ten per leftover unit. -/
theorem roundDecimal_fract_thirty (n : ℕ) :
    roundDecimal (((n : ℚ) / 3 - ((n / 3 : ℕ) : ℚ)) * 30) = (((n % 3) * 10 : ℕ) : ℤ) := by
  have h30 : ((n % 3 : ℕ) : ℚ) / 3 * 30 = (((n % 3) * 10 : ℕ) : ℚ) := by
    push_cast
    ring
  rw [fract_natCast_div_three, h30, roundDecimal_natCast]

/-- The days rounding of part_000 on a natural number over three. -/
theorem roundDecimal_third (n : ℕ) :
    roundDecimal ((n : ℚ) / 3) = (((n + 1) / 3 : ℕ) : ℤ) := by
  rw [roundDecimal_eq_roundHalfUp, roundHalfUp_eq_floor_add_half, halfUpThird]

/-- Closed form of calculatePerfectThird000 of part_000: four remission months
per whole third of the years (instead of a whole year), four months per
leftover year, a third of the months, ten days per leftover month, the rounded
third of the days, then normalisation of days into months. -/
theorem calculatePerfectThird000_eq (y m d : ℕ) :
    calculatePerfectThird000 y m d =
      ((((y / 3) * 4 + (y % 3) * 4 + m / 3 + ((m % 3) * 10 + (d + 1) / 3) / 30 : ℕ) : ℤ),
       ((((m % 3) * 10 + (d + 1) / 3) % 30 : ℕ) : ℤ)) := by
  simp only [calculatePerfectThird000, floor_natCast_div_three, Int.cast_natCast,
    roundDecimal_fract_twelve, roundDecimal_fract_thirty, roundDecimal_third]
  have hM : (if 0 < m then
        (if 0 < y then ((y / 3 : ℕ) : ℤ) * 4 + (((y % 3) * 4 : ℕ) : ℤ) else 0) +
          ((m / 3 : ℕ) : ℤ)
      else (if 0 < y then ((y / 3 : ℕ) : ℤ) * 4 + (((y % 3) * 4 : ℕ) : ℤ) else 0)) =
      (((y / 3) * 4 + (y % 3) * 4 + m / 3 : ℕ) : ℤ) := by
    split_ifs <;> push_cast <;> omega
  have hD : (if 0 < d then
        (if 0 < m then (((m % 3) * 10 : ℕ) : ℤ) else 0) + (((d + 1) / 3 : ℕ) : ℤ)
      else (if 0 < m then (((m % 3) * 10 : ℕ) : ℤ) else 0)) =
      (((m % 3) * 10 + (d + 1) / 3 : ℕ) : ℤ) := by
    split_ifs <;> push_cast <;> omega
  rw [hM, hD, remNorm000Loop_natCast]

/-- Concrete evaluation: a three-year sentence gets one whole year of remission
from script.js. -/
theorem computeRemissionFromSentence_three_years :
    computeRemissionFromSentence 3 0 0 = ⟨1, 0, 0⟩ := by
  simp only [computeRemissionFromSentence]
  rw [if_neg (by norm_num), if_neg (by norm_num), computePerfectThird_eq]

/-- Concrete evaluation: a three-year sentence gets only four months of
remission from part_000. -/
theorem remissionRules000_three_years : remissionRules000 3 0 0 = (4, 0) := by
  simp only [remissionRules000]
  rw [if_neg (by norm_num), if_neg (by norm_num), calculatePerfectThird000_eq]
  decide

/-- C5 counterexample: at the validated input of 3 years, 0 months, 0 days
(perfect-third tier, so outside the claimed short-sentence exception) the two
implementations disagree on the remission amount: script.js grants 360
fixed-unit days (one year) and part_000 grants 120 (four months). -/
theorem claim_C5_counterexample :
    remTotal000 (remissionRules000 3 0 0) ≠
      (remTotal (computeRemissionFromSentence 3 0 0) : ℤ) := by
  rw [remissionRules000_three_years, computeRemissionFromSentence_three_years]
  decide

/-- C5 (amended): for validated inputs with fewer than 3 years the two
implementations compute the same remission (the part_000 months/days pair
equals the script.js months/days, whose years component is then zero); from 3
years on they diverge, because part_000 converts each whole third of the years
into 4 months instead of 12, so the short-sentence EPD policy is not their only
behavioral divergence. -/
theorem claim_C5 (y m d : ℕ) (h : y < 3) :
    remissionRules000 y m d =
      (((computeRemissionFromSentence y m d).months : ℤ),
       ((computeRemissionFromSentence y m d).days : ℤ)) ∧
      (computeRemissionFromSentence y m d).years = 0 := by
  simp only [remissionRules000, computeRemissionFromSentence]
  by_cases h1 : y * 360 + m * 30 + d ≤ 30
  · rw [if_pos h1, if_pos h1]
    simp
  · rw [if_neg h1, if_neg h1]
    by_cases h2 : 31 ≤ y * 360 + m * 30 + d ∧ y * 360 + m * 30 + d ≤ 44
    · rw [if_pos h2, if_pos h2]
      refine ⟨?_, rfl⟩
      simp only [Prod.mk.injEq]
      constructor
      · simp
      · omega
    · rw [if_neg h2, if_neg h2, calculatePerfectThird000_eq, computePerfectThird_eq]
      refine ⟨?_, by simp; omega⟩
      simp only [Prod.mk.injEq, Nat.cast_inj]
      constructor <;> omega

theorem claim_C5_witness :
    remissionRules000 1 2 5 =
      (((computeRemissionFromSentence 1 2 5).months : ℤ),
       ((computeRemissionFromSentence 1 2 5).days : ℤ)) ∧
      (computeRemissionFromSentence 1 2 5).years = 0 :=
  claim_C5 1 2 5 (by norm_num)

/-- C6 counterexample: no input makes the fractional part of the days quotient
equal to one half, so the claimed tie inputs do not exist: the days pool is a
natural number and the fractional part of a third of a natural number is 0,
one third or two thirds. -/
theorem claim_C6_counterexample :
    ¬ ∃ y m d : ℕ, daysQuotient y m d - (⌊daysQuotient y m d⌋ : ℚ) = 1 / 2 := by
  rintro ⟨y, m, d, h⟩
  unfold daysQuotient at h
  rw [floor_natCast_div_three, Int.cast_natCast, fract_natCast_div_three] at h
  have h2 : ((daysPool y m d % 3 : ℕ) : ℚ) * 2 = 3 := by linarith
  have h3 : (daysPool y m d % 3) * 2 = 3 := by exact_mod_cast h2
  omega

/-- C6 (amended): the days quotient is rounded half-up, that is to the floor of
the quotient plus one half, so a fractional part of at least one half rounds up
and one below one half rounds down; but the fractional part of the days
quotient is always 0, one third or two thirds, never exactly one half. -/
theorem claim_C6 : ∀ y m d : ℕ,
    roundHalfUp (daysQuotient y m d) = ⌊daysQuotient y m d + 1 / 2⌋ ∧
      (daysQuotient y m d - (⌊daysQuotient y m d⌋ : ℚ) = 0 ∨
       daysQuotient y m d - (⌊daysQuotient y m d⌋ : ℚ) = 1 / 3 ∨
       daysQuotient y m d - (⌊daysQuotient y m d⌋ : ℚ) = 2 / 3) := by
  intro y m d
  refine ⟨roundHalfUp_eq_floor_add_half _, ?_⟩
  unfold daysQuotient
  rw [floor_natCast_div_three, Int.cast_natCast, fract_natCast_div_three]
  have h : daysPool y m d % 3 = 0 ∨ daysPool y m d % 3 = 1 ∨ daysPool y m d % 3 = 2 := by
    omega
  rcases h with h | h | h <;> rw [h] <;> norm_num

/-- The carry loop stops at once when the day already fits the month. -/
theorem carryLoop_stop (s : ℤ × ℤ × ℤ) (h : s.2.2 ≤ daysInCalendarMonth s.2.1 s.1) :
    carryLoop s = s := by
  rw [carryLoop_eq, if_neg]
  simp only [carryCond, decide_eq_true_eq]
  omega

/-- The day-normalisation loop stops at once when the day is at most 30. -/
theorem fixDaysLoop_stop (s : ℤ × ℤ) (h : s.2 ≤ 30) : fixDaysLoop s = s := by
  rw [fixDaysLoop_eq, if_neg]
  simp only [fixDaysCond, decide_eq_true_eq]
  omega

/-- The month-normalisation loop stops at once when the month is at most 12. -/
theorem fixMonthsLoop_stop (s : ℤ × ℤ) (h : s.2 ≤ 12) : fixMonthsLoop s = s := by
  rw [fixMonthsLoop_eq, if_neg]
  simp only [fixMonthsCond, decide_eq_true_eq]
  omega

/-- The day-borrow loop stops at once when the day is positive. -/
theorem borrowDaysLoop_stop (s : ℤ × ℤ × ℤ) (h : 0 < s.2.2) : borrowDaysLoop s = s := by
  rw [borrowDaysLoop_eq, if_neg]
  simp only [borrowDaysCond, decide_eq_true_eq]
  omega

/-- The month-borrow loop stops at once when the month is positive. -/
theorem borrowMonthsLoop_stop (s : ℤ × ℤ) (h : 0 < s.2) : borrowMonthsLoop s = s := by
  rw [borrowMonthsLoop_eq, if_neg]
  simp only [borrowMonthsCond, decide_eq_true_eq]
  omega

/-- C8: conversion of a fixed-unit date whose day already fits the real month
is the identity, and conversion of any fixed-unit date with day 1..30 and month
1..12 is a valid real calendar date. -/
theorem claim_C8 (f : FixedDate) :
    (f.day ≤ daysInCalendarMonth f.month f.year →
      convertFixedToCalendarDate f = ⟨f.year, f.month, f.day⟩) ∧
    (1 ≤ f.day → f.day ≤ 30 → 1 ≤ f.month → f.month ≤ 12 →
      validCalendarDate (convertFixedToCalendarDate f)) := by
  constructor
  · intro h
    unfold convertFixedToCalendarDate
    rw [carryLoop_stop (f.year, f.month, f.day) h]
  · intro hd1 hd30 hm1 hm12
    by_cases hle : f.day ≤ daysInCalendarMonth f.month f.year
    · unfold convertFixedToCalendarDate
      rw [carryLoop_stop (f.year, f.month, f.day) hle]
      exact ⟨hm1, hm12, hd1, hle⟩
    · push_neg at hle
      have hlen : daysInCalendarMonth f.month f.year = monthLength f.year f.month :=
        daysInCalendarMonth_eq_monthLength f.month f.year hm1 hm12
      have hm2 : f.month = 2 := monthLength_le_twentynine f.year f.month (by omega)
      unfold convertFixedToCalendarDate
      rw [carryLoop_eq, if_pos (by simp only [carryCond, decide_eq_true_eq]; exact hle)]
      have hstep : carryStep (f.year, f.month, f.day) =
          (f.year, 3, f.day - daysInCalendarMonth f.month f.year) := by
        simp only [carryStep, hm2]
        norm_num
      rw [hstep]
      have h31 : daysInCalendarMonth 3 f.year = 31 := by
        rw [daysInCalendarMonth_eq_monthLength 3 f.year (by norm_num) (by norm_num)]
        simp [monthLength]
      have hlen28 : 28 ≤ daysInCalendarMonth f.month f.year := daysInCalendarMonth_lb _ _
      have hfit : f.day - daysInCalendarMonth f.month f.year ≤ daysInCalendarMonth 3 f.year := by
        omega
      rw [carryLoop_stop (f.year, 3, f.day - daysInCalendarMonth f.month f.year) hfit]
      have h3a : (1 : ℤ) ≤ 3 := by norm_num
      have h3b : (3 : ℤ) ≤ 12 := by norm_num
      have hday1 : (1 : ℤ) ≤ f.day - daysInCalendarMonth f.month f.year := by omega
      exact ⟨h3a, h3b, hday1, hfit⟩

theorem claim_C8_witness :
    convertFixedToCalendarDate ⟨2024, 1, 15⟩ = ⟨2024, 1, 15⟩ ∧
      validCalendarDate (convertFixedToCalendarDate ⟨2023, 2, 30⟩) :=
  ⟨(claim_C8 ⟨2024, 1, 15⟩).1 (by decide),
   (claim_C8 ⟨2023, 2, 30⟩).2 (by decide) (by decide) (by decide) (by decide)⟩

/-- Concrete evaluation: fixed-unit LPD of a 3-year sentence starting on
2024-01-01; the one-day step borrows a fixed 30-day month and lands on fixed
2026-12-30. -/
theorem addFixed_start2024 : addFixedDurationToDate_parts 2024 1 1 3 0 0 = ⟨2026, 12, 30⟩ := by
  simp only [addFixedDurationToDate_parts]
  rw [fixDaysLoop_stop _ (by decide), fixMonthsLoop_stop _ (by decide)]
  decide

/-- Concrete evaluation: fixed 2026-12-30 is already a valid calendar date. -/
theorem convert_2026_12_30 : convertFixedToCalendarDate ⟨2026, 12, 30⟩ = ⟨2026, 12, 30⟩ := by
  have hc : carryLoop (2026, 12, 30) = (2026, 12, 30) := carryLoop_of_iterFuel (n := 1) (by decide)
  simp [convertFixedToCalendarDate, hc]

/-- Concrete evaluation: one year of remission off 2026-12-30 plus one day. -/
theorem subtract_lpd_2026 :
    subtractRemissionFromCalendarLPD ⟨2026, 12, 30⟩ ⟨1, 0, 0⟩ = ⟨2025, 12, 31⟩ := by
  simp only [subtractRemissionFromCalendarLPD]
  rw [borrowDaysLoop_stop _ (by decide), borrowMonthsLoop_stop _ (by decide),
    carryLoop_stop _ (by decide)]
  decide

/-- Concrete evaluation of the full calculation for 2024-01-01 plus 3 years. -/
theorem calcAll_start2024 :
    calcAll 2024 1 1 3 0 0 = (⟨2026, 12, 30⟩, ⟨1, 0, 0⟩, ⟨2025, 12, 31⟩) := by
  simp only [calcAll, addFixed_start2024, convert_2026_12_30,
    computeRemissionFromSentence_three_years, subtract_lpd_2026]
  norm_num

/-- C3 counterexample: for start date 2024-01-01 and duration 3 years the
program returns LPD 2026-12-30 and EPD 2025-12-31, not the claimed LPD
2026-12-31 and EPD 2026-01-01. -/
theorem claim_C3_counterexample :
    (calcAll 2024 1 1 3 0 0).1 ≠ (⟨2026, 12, 31⟩ : CalendarDate) ∧
      (calcAll 2024 1 1 3 0 0).2.2 ≠ (⟨2026, 1, 1⟩ : CalendarDate) := by
  constructor <;> rw [calcAll_start2024] <;> decide

/-- C3 (amended): for start date 2024-01-01 and duration 3 years the program
returns remission 1 year, LPD 2026-12-30 (the minus-one-day step borrows a
fixed 30-day month, so December 31 is never reached) and EPD 2025-12-31. -/
theorem claim_C3 :
    calcAll 2024 1 1 3 0 0 = (⟨2026, 12, 30⟩, ⟨1, 0, 0⟩, ⟨2025, 12, 31⟩) :=
  calcAll_start2024

/-- Concrete evaluation: fixed-unit LPD of a 1-month sentence starting on
2023-02-01 is fixed 2023-02-30. -/
theorem addFixed_start2023 : addFixedDurationToDate_parts 2023 2 1 0 1 0 = ⟨2023, 2, 30⟩ := by
  simp only [addFixedDurationToDate_parts]
  rw [fixDaysLoop_stop _ (by decide), fixMonthsLoop_stop _ (by decide)]
  decide

/-- Concrete evaluation: fixed 2023-02-30 carries over the 28 days of February
2023 to March 2. -/
theorem convert_2023_02_30 : convertFixedToCalendarDate ⟨2023, 2, 30⟩ = ⟨2023, 3, 2⟩ := by
  have hc : carryLoop (2023, 2, 30) = (2023, 3, 2) := carryLoop_of_iterFuel (n := 2) (by decide)
  simp [convertFixedToCalendarDate, hc]

/-- Concrete evaluation: a 1-month sentence earns no remission. -/
theorem computeRemissionFromSentence_one_month :
    computeRemissionFromSentence 0 1 0 = ⟨0, 0, 0⟩ := by
  simp only [computeRemissionFromSentence]
  norm_num

/-- Concrete evaluation of the full calculation for 2023-02-01 plus 1 month. -/
theorem calcAll_start2023 :
    calcAll 2023 2 1 0 1 0 = (⟨2023, 3, 2⟩, ⟨0, 0, 0⟩, ⟨2023, 3, 2⟩) := by
  simp only [calcAll, addFixed_start2023, convert_2023_02_30,
    computeRemissionFromSentence_one_month]
  norm_num

/-- C4 counterexample: for start date 2023-02-01 and duration 1 month the
program returns LPD 2023-03-02, not the claimed 2023-03-01: the fixed LPD is
2023-02-30 and the 2 days beyond the 28 of February land on March 2. -/
theorem claim_C4_counterexample :
    (calcAll 2023 2 1 0 1 0).1 ≠ (⟨2023, 3, 1⟩ : CalendarDate) := by
  rw [calcAll_start2023]
  decide

/-- C4 (amended): for start date 2023-02-01 and duration 1 month (30 fixed-unit
days, no-remission tier) the remission is zero, the LPD is the calendar date
2023-03-02 obtained by carrying the fixed day 30 over the 28 days of February,
and the EPD equals the LPD. -/
theorem claim_C4 :
    calcAll 2023 2 1 0 1 0 = (⟨2023, 3, 2⟩, ⟨0, 0, 0⟩, ⟨2023, 3, 2⟩) :=
  calcAll_start2023

/-- The day of the carry-loop step never depends on the month wrap. -/
theorem carryStep_day (s : ℤ × ℤ × ℤ) :
    (carryStep s).2.2 = s.2.2 - daysInCalendarMonth s.2.1 s.1 := by
  simp only [carryStep]
  split <;> rfl

/-- C10: the carry loop of the fixed-to-calendar conversion finishes within
fuel 2 for every fixed-unit date with day at most 30 and month in 1..12 (each
iteration removes a real month length of at least 28); and each normalisation
and borrowing loop of the duration adder, the remission calculator and the date
subtractor finishes within a fuel computable from its start state, for every
start state. -/
theorem claim_C10 :
    (∀ f : FixedDate, f.day ≤ 30 → 1 ≤ f.month → f.month ≤ 12 →
        (iterFuel carryCond carryStep 2 (f.year, f.month, f.day)).isSome = true) ∧
      (∀ s : ℤ × ℤ, (iterFuel fixDaysCond fixDaysStep s.2.toNat s).isSome = true) ∧
      (∀ s : ℤ × ℤ, (iterFuel fixMonthsCond fixMonthsStep s.2.toNat s).isSome = true) ∧
      (∀ s : ℕ × ℕ, (iterFuel remNormCond remNormStep s.2 s).isSome = true) ∧
      (∀ s : ℤ × ℤ × ℤ,
        (iterFuel borrowDaysCond borrowDaysStep (1 - s.2.2).toNat s).isSome = true) ∧
      (∀ s : ℤ × ℤ,
        (iterFuel borrowMonthsCond borrowMonthsStep (1 - s.2).toNat s).isSome = true) ∧
      (∀ s : ℤ × ℤ × ℤ, (iterFuel carryCond carryStep s.2.2.toNat s).isSome = true) := by
  refine ⟨?_, ?_, ?_, ?_, ?_, ?_, ?_⟩
  · intro f hday hm1 hm2
    by_cases hc : carryCond (f.year, f.month, f.day) = true
    · have hc2 : carryCond (carryStep (f.year, f.month, f.day)) = false := by
        simp only [carryCond, decide_eq_true_eq] at hc
        have hd := carryStep_day (f.year, f.month, f.day)
        have h28a := daysInCalendarMonth_lb (f.year, f.month, f.day).2.1
          (f.year, f.month, f.day).1
        have h28b := daysInCalendarMonth_lb (carryStep (f.year, f.month, f.day)).2.1
          (carryStep (f.year, f.month, f.day)).1
        have hday2 : (f.year, f.month, f.day).2.2 ≤ 30 := hday
        simp only [carryCond, decide_eq_false_iff_not]
        omega
      simp [iterFuel, hc, hc2]
    · simp [iterFuel, hc]
  · intro s
    apply iterFuel_isSome_of_measure fixDaysCond fixDaysStep (fun a => a.2.toNat) ?_ _ _
      (le_refl _)
    intro a ha
    simp only [fixDaysCond, decide_eq_true_eq] at ha
    simp only [fixDaysStep]
    omega
  · intro s
    apply iterFuel_isSome_of_measure fixMonthsCond fixMonthsStep (fun a => a.2.toNat) ?_ _ _
      (le_refl _)
    intro a ha
    simp only [fixMonthsCond, decide_eq_true_eq] at ha
    simp only [fixMonthsStep]
    omega
  · intro s
    apply iterFuel_isSome_of_measure remNormCond remNormStep (fun a => a.2) ?_ _ _
      (le_refl _)
    intro a ha
    simp only [remNormCond, decide_eq_true_eq] at ha
    simp only [remNormStep]
    omega
  · intro s
    apply iterFuel_isSome_of_measure borrowDaysCond borrowDaysStep
      (fun a => (1 - a.2.2).toNat) ?_ _ _ (le_refl _)
    intro a ha
    simp only [borrowDaysCond, decide_eq_true_eq] at ha
    simp only [borrowDaysStep]
    have h1 := daysInCalendarMonth_lb (if a.2.1 - 1 < 1 then 12 else a.2.1 - 1)
      (if a.2.1 - 1 < 1 then a.1 - 1 else a.1)
    omega
  · intro s
    apply iterFuel_isSome_of_measure borrowMonthsCond borrowMonthsStep
      (fun a => (1 - a.2).toNat) ?_ _ _ (le_refl _)
    intro a ha
    simp only [borrowMonthsCond, decide_eq_true_eq] at ha
    simp only [borrowMonthsStep]
    omega
  · intro s
    apply iterFuel_isSome_of_measure carryCond carryStep (fun a => a.2.2.toNat) ?_ _ _
      (le_refl _)
    intro a ha
    simp only [carryCond, decide_eq_true_eq] at ha
    have hd := carryStep_day a
    have h28 := daysInCalendarMonth_lb a.2.1 a.1
    show (carryStep a).2.2.toNat < a.2.2.toNat
    omega

theorem claim_C10_witness :
    (iterFuel carryCond carryStep 2 ((2023 : ℤ), (2 : ℤ), (30 : ℤ))).isSome = true ∧
      (iterFuel fixDaysCond fixDaysStep ((100 : ℤ)).toNat ((5 : ℤ), (100 : ℤ))).isSome = true :=
  ⟨claim_C10.1 ⟨2023, 2, 30⟩ (by decide) (by decide) (by decide),
   claim_C10.2.1 (5, 100)⟩

end Remicalc
